import Mathlib

/-!
Shallow embedding of the xrpc RPC framework (Go) for checking its
natural-language specification.  Strings from the Go side are modelled as
`List Char`; encoded payloads (the opaque byte sequences produced by the
gob or JSON codec) are modelled abstractly by the inductive `Payload`,
keeping exactly the distinctions the code observes: a payload that encodes
a concrete value, the empty/null payload that an error response carries in
its reply field, and a payload that fails to decode.
-/

/-- Go strings, modelled as lists of characters. -/
abbrev Str := List Char

deriving instance DecidableEq for Except

/-- Abstract model of an encoded payload (the bytes in a request's Args
field or a response's Reply/Result field).  `value v` is a well-formed
encoding of some value, `null` is the empty gob byte slice / JSON null that
error responses carry (codec.go `ErrResponse` leaves `Reply` nil; the JSON
codec marshals a nil `Result` to `null`), `malformed` is a payload that
decodes as nothing. -/
inductive Payload
  | value (v : Str)
  | null
  | malformed
deriving DecidableEq

/-- Model of the `Request` interface data (codec.go `defaultRequest` /
jsonrpc `jsonRequest`): method string, encoded params, identifier. -/
structure Request where
  method : Str
  params : Payload
  id : Str
deriving DecidableEq

/-- Protocol error code `Success = 0` (err.go). -/
def Success : Int := 0
/-- Protocol error code `ParseErr = -32700` (err.go). -/
def ParseErr : Int := -32700
/-- Protocol error code `InvalidRequest = -32600` (err.go). -/
def InvalidRequest : Int := -32600
/-- Protocol error code `MethodNotFound = -32601` (err.go). -/
def MethodNotFound : Int := -32601
/-- Protocol error code `InvalidParamErr = -32602` (err.go). -/
def InvalidParamErr : Int := -32602
/-- Protocol error code `InternalErr = -32603` (err.go). -/
def InternalErr : Int := -32603

/-- Model of the `Response` interface data.  Both concrete response types
(`defaultResponse` in codec.go and `jsonResponse` in the jsonrpc package)
carry a reply payload, an error message, an error code and an identifier;
both start with an empty identifier until `SetReqId` is called. -/
structure Response where
  reply : Payload
  errMsg : Str
  errCode : Int
  id : Str
deriving DecidableEq

/-- The two concrete wire codecs: the native binary (gob) codec of codec.go
and the JSON-RPC codec of the jsonrpc package. -/
inductive CodecKind
  | gob
  | json
deriving DecidableEq

/-- `ErrResponse(errCode, err)` of either codec: reply payload left
nil/null, message and code set, identifier empty (gobCodec.ErrResponse in
codec.go; jsonCodec.ErrResponse in the jsonrpc package). -/
def errResponse (code : Int) (msg : Str) : Response :=
  { reply := Payload.null, errMsg := msg, errCode := code, id := [] }

/-- `NewResponse(data)` of either codec: reply payload encodes the handler
reply, no error, identifier empty. -/
def newResponse (v : Str) : Response :=
  { reply := Payload.value v, errMsg := [], errCode := Success, id := [] }

/-- `Response.SetReqId(id)` of either concrete response type: overwrite the
identifier field. -/
def Response.setReqId (r : Response) (i : Str) : Response :=
  { r with id := i }

/-- Model of server.go `methodType`: the method name, whether the method's
argument type is a pointer type (`ArgType.Kind() == reflect.Ptr`), and the
behaviour of the method body (given the request payload, return the error
the handler returns or the reply value it writes). -/
structure methodType where
  name : Str
  argIsPtr : Bool
  impl : Payload → Except Str Str

/-- Model of server.go `service`: name and method table. -/
structure service where
  name : Str
  methods : List (Str × methodType)

/-- Model of server.go `Server`: the codec and the service map `s.m`. -/
structure Server where
  codec : CodecKind
  services : List (Str × service)

/-- Lookup in an association list keyed by strings (models `sync.Map.Load`
and Go map indexing). -/
def assocFind {α : Type} : List (Str × α) → Str → Option α
  | [], _ => none
  | (k, v) :: rest, key => if k = key then some v else assocFind rest key

/-- Store in an association list keyed by strings (models Go map store /
`sync.Map.Store`): overwrite an existing key or append a new binding. -/
def assocStore {α : Type} : List (Str × α) → Str → α → List (Str × α)
  | [], k, v => [(k, v)]
  | (k0, v0) :: rest, k, v =>
      if k0 = k then (k, v) :: rest else (k0, v0) :: assocStore rest k v

/-- Number of occurrences of the dot character, modelling
`strings.Count(reqMethod, ".")` in server.go. -/
def countDot (s : Str) : Nat := (s.filter (fun c => c = '.')).length

/-- Index of the last dot, modelling `strings.LastIndex(reqMethod, ".")`
(which returns -1, here `none`, when absent). -/
def lastIndexDot : Str → Option Nat
  | [] => none
  | c :: rest =>
      match lastIndexDot rest with
      | some i => some (i + 1)
      | none => if c = '.' then some 0 else none

/-- The error message `rpc: service/method request ill-formed: <method>`
built by server.go `parseFromRPCMethod`. -/
def illFormedMsg (m : Str) : Str :=
  "rpc: service/method request ill-formed: ".toList ++ m

/-- server.go `parseFromRPCMethod`: reject unless the method string
contains exactly one dot, then split at the last (the only) dot. -/
def parseFromRPCMethod (reqMethod : Str) : Except Str (Str × Str) :=
  if countDot reqMethod ≠ 1 then Except.error (illFormedMsg reqMethod)
  else
    match lastIndexDot reqMethod with
    | none => Except.error (illFormedMsg reqMethod)
    | some dot => Except.ok (reqMethod.take dot, reqMethod.drop (dot + 1))

/-- `ReadRequestBody(reqBody, container)` of either codec, as invoked by
the dispatcher.  `intoPtr` records whether the container handed to the
codec is a pointer (server.go passes `argV.Interface()`, which is a
pointer exactly when the method's ArgType is a pointer type).  Both
`encoding/gob` and `encoding/json` refuse to decode into a non-pointer
container, so decoding fails whenever `intoPtr = false`; otherwise a
well-formed payload decodes, the empty payload is an EOF for gob and a
no-op success for JSON (decoding JSON `null` leaves the target untouched),
and a malformed payload fails for both. -/
def readRequestBody (k : CodecKind) (p : Payload) (intoPtr : Bool) :
    Except Str Unit :=
  if intoPtr = false then
    Except.error "decode into non-pointer container".toList
  else
    match k, p with
    | _, Payload.value _ => Except.ok ()
    | CodecKind.gob, Payload.null =>
        Except.error "[Decode] got err: EOF".toList
    | CodecKind.json, Payload.null => Except.ok ()
    | _, Payload.malformed => Except.error "decode failure".toList

/-- server.go `Server.call`, body of the per-request loop: parse the
method string, look up the service and the method, materialize the
argument container (a pointer exactly when ArgType is a pointer type),
decode the payload into it, invoke the handler, and build the response.
`SetReqId` is applied exactly where the source applies it: on the
unknown-method reply, the handler-error reply and the success reply, and
not on the parse-error, unknown-service or body-decode-failure replies. -/
def Server.callOne (s : Server) (req : Request) : Response :=
  match parseFromRPCMethod req.method with
  | Except.error e => errResponse InvalidRequest e
  | Except.ok (serviceName, methodName) =>
    match assocFind s.services serviceName with
    | none =>
        errResponse MethodNotFound
          ("rpc: can\x27t find service ".toList ++ serviceName)
    | some svc =>
      match assocFind svc.methods methodName with
      | none =>
          (errResponse MethodNotFound
            ("rpc: can\x27t find method ".toList ++ req.method)).setReqId
            req.id
      | some m =>
        match readRequestBody s.codec req.params m.argIsPtr with
        | Except.error _ =>
            errResponse InternalErr
              ("rpc: could not read request body ".toList ++ req.method)
        | Except.ok _ =>
          match m.impl req.params with
          | Except.error e => (errResponse InternalErr e).setReqId req.id
          | Except.ok v => (newResponse v).setReqId req.id

/-- server.go `Server.call` over a request list: `replies` is allocated
with `make([]Response, len(reqs))` and `replies[idx]` is assigned on every
path of the loop body, i.e. an index-aligned map. -/
def Server.call (s : Server) (reqs : List Request) : List Response :=
  reqs.map s.callOne

/-- Shape of a frame body as the wire codecs can observe it when decoding
into a request list: the body encodes a list of requests, a single request
object, or neither. -/
inductive ReqBody
  | list (rs : List Request)
  | single (r : Request)
  | other
deriving DecidableEq

/-- Model of the error message a failed gob decode produces (the exact
`encoding/gob` detail text is abstracted). -/
def gobDecodeErr : Str := "[Decode] got err: decode failure".toList

/-- Model of the error message a failed JSON decode produces (the exact
`encoding/json` detail text is abstracted). -/
def jsonDecodeErr : Str := "json decode failure".toList

/-- codec.go `gobCodec.ReadRequest`: decode the body into `[]Request` and
return the decode error on failure.  There is no single-object fallback: a
gob stream encoding a single request object (or anything else that is not
a request list) fails the decode and is returned as an error. -/
def gobCodec.ReadRequest : ReqBody → Except Str (List Request)
  | ReqBody.list rs => Except.ok rs
  | _ => Except.error gobDecodeErr

/-- jsonrpc `jsonCodec.ReadRequest`: try to decode the body as a request
array; on failure retry as a single request object and wrap it in a
one-element list; fail only when neither shape decodes. -/
def jsonCodec.ReadRequest : ReqBody → Except Str (List Request)
  | ReqBody.list rs => Except.ok rs
  | ReqBody.single r => Except.ok [r]
  | ReqBody.other => Except.error jsonDecodeErr

/-- `s.codec.ReadRequest`, dispatched on the concrete codec. -/
def readRequest : CodecKind → ReqBody → Except Str (List Request)
  | CodecKind.gob, b => gobCodec.ReadRequest b
  | CodecKind.json, b => jsonCodec.ReadRequest b

/-- One iteration of the server.go `serveConn` loop, after a frame body
has been read: decode it into requests and dispatch, or — because the
`resps` slice is declared outside the loop and the failure path uses
`resps = append(resps, ...)` — extend the response list left over from the
previous iteration with a single ParseErr response.  Returns the response
list encoded and written for this frame. -/
def serveConnStep (s : Server) (resps : List Response) (b : ReqBody) :
    List Response :=
  match readRequest s.codec b with
  | Except.error e => resps ++ [errResponse ParseErr e]
  | Except.ok reqs => s.call reqs

/-- The sequence of response lists written by `serveConn` for a sequence
of incoming frame bodies, threading the `resps` variable across
iterations exactly as the source does (it starts as the empty slice).
Frame encoding and the TCP write itself are abstracted away; reading stops
when the body list is exhausted (a read error breaks the loop). -/
def serveConnWrites (s : Server) : List Response → List ReqBody → List (List Response)
  | _, [] => []
  | resps, b :: bs =>
      serveConnStep s resps b :: serveConnWrites s (serveConnStep s resps b) bs

/-- The value of the `resps` variable after `serveConn` has processed a
sequence of frame bodies. -/
def connFinal (s : Server) : List Response → List ReqBody → List Response
  | resps, [] => resps
  | resps, b :: bs => connFinal s (serveConnStep s resps b) bs

/-- Outcome of running a Go function that can also panic: a normal result,
a returned error, or a runtime panic. -/
inductive Outcome (α : Type)
  | ok (a : α)
  | err (e : Str)
  | crash (msg : Str)

/-- The Go runtime message for indexing element 0 of an empty slice. -/
def idxOutOfRangeMsg : Str :=
  "runtime error: index out of range [0] with length 0".toList

/-- The Go runtime message for dereferencing a nil pointer. -/
def nilDerefMsg : Str :=
  "runtime error: invalid memory address or nil pointer dereference".toList

/-- `ReadResponseBody(respBody, container)` of either codec, as invoked by
the client with a pointer container: a well-formed payload decodes; the
nil/null payload that error responses carry in their reply field is an EOF
error for gob (decoding an empty gob stream) and a no-op success for JSON
(decoding `null` leaves the target untouched); a malformed payload fails
for both. -/
def readResponseBody (k : CodecKind) (p : Payload) : Except Str Unit :=
  match k, p with
  | _, Payload.value _ => Except.ok ()
  | CodecKind.gob, Payload.null => Except.error "[Decode] got err: EOF".toList
  | CodecKind.json, Payload.null => Except.ok ()
  | _, Payload.malformed => Except.error "decode failure".toList

/-- client.go `Client.Call`, from the point where `callTcp` has produced
its result (`transport` stands for the outcome of the encode/dial/write/
read/decode exchange, whose result is stored into `resps`).  On transport
error the error is returned.  Otherwise the source runs `resp := resps[0]`
with no length check — a panic when the decoded response list is empty —
and then returns the result of `ReadResponseBody(resp.GetReply(), reply)`;
the response's structured error field is never inspected. -/
def Client.Call (k : CodecKind) (transport : Except Str (List Response)) :
    Outcome Unit :=
  match transport with
  | Except.error e => Outcome.err e
  | Except.ok resps =>
    match resps with
    | [] => Outcome.crash idxOutOfRangeMsg
    | r :: _ =>
      match readResponseBody k r.reply with
      | Except.error e => Outcome.err e
      | Except.ok _ => Outcome.ok ()

/-- Network side effects a client call can perform. -/
inductive NetEvent
  | dial
  | write
  | read
deriving DecidableEq

/-- client.go `Client.CallBatch`, with the network abstracted into a
trace: the codec-type check (`reflect.TypeOf(c.codec).Elem().Name() !=
"jsonCodec"`, which rejects the `*gobCodec` value) runs first and returns
before any reflection on `reply` and before `callTcp`; then the
reply-container shape check; then `callTcp` (which dials through `valid()`
when no connection exists, frame-writes and frame-reads — `transport` is
the decoded response list that exchange yields) and the re-encoding of the
collected `GetResult` fields into the caller's container (abstracted to
returning the collected result payloads).  The second component is the
list of network events performed. -/
def Client.CallBatch (k : CodecKind) (replyIsSeqPtr : Bool)
    (reqs : List Request) (connected : Bool)
    (transport : Except Str (List Response)) :
    (Except Str (List Payload)) × List NetEvent :=
  match k with
  | CodecKind.gob => (Except.error "only jsonrpc support CallBatch".toList, [])
  | CodecKind.json =>
    if replyIsSeqPtr = false then
      (Except.error "multi reply should be array or slice pointer".toList, [])
    else
      let tr := (if connected then [] else [NetEvent.dial]) ++
        [NetEvent.write, NetEvent.read]
      match transport with
      | Except.error e => (Except.error e, tr)
      | Except.ok resps => (Except.ok (resps.map (fun r => r.reply)), tr)

/-- Model of a Go method as reflection sees it (name plus the signature
facts server.go `suitableMethod` inspects) together with its behaviour. -/
structure GoMethod where
  name : Str
  pkgPath : Str
  numIn : Nat
  argExportedOrBuiltin : Bool
  argIsPtr : Bool
  replyIsPtr : Bool
  replyExportedOrBuiltin : Bool
  numOut : Nat
  outIsError : Bool
  impl : Payload → Except Str Str

/-- server.go `suitableMethod`: the five suitability criteria, checked in
source order; returns the method descriptor or nil. -/
def suitableMethod (m : GoMethod) : Option methodType :=
  if m.pkgPath ≠ [] then none
  else if m.numIn ≠ 3 then none
  else if m.argExportedOrBuiltin = false then none
  else if m.replyIsPtr = false then none
  else if m.replyExportedOrBuiltin = false then none
  else if m.numOut ≠ 1 then none
  else if m.outIsError = false then none
  else some { name := m.name, argIsPtr := m.argIsPtr, impl := m.impl }

/-- Model of a handler value offered for registration: the concrete type
name (after pointer indirection) and its method set. -/
structure HandlerType where
  typeName : Str
  methods : List GoMethod

/-- `reflect.Type.MethodByName`: find a method by name. -/
def findGoMethod : List GoMethod → Str → Option GoMethod
  | [], _ => none
  | m :: rest, n => if m.name = n then some m else findGoMethod rest n

/-- server.go `suitableMethodWithName`: look the method up by name and
check its suitability; nil when the method is absent or unsuitable. -/
def suitableMethodWithName (h : HandlerType) (methodName : Str) :
    Option methodType :=
  match findGoMethod h.methods methodName with
  | some m => suitableMethod m
  | none => none

/-- server.go `isExported`: the first rune is upper-case (the empty name
decodes to the replacement rune, which is not upper-case). -/
def isExported : Str → Bool
  | [] => false
  | c :: _ => c.isUpper

/-- server.go `Server.RegisterName`: look up the (possibly nil) method
descriptor, then branch on whether the service is already registered.  In
the existing-service branch `loadedSrv.method[mt.method.Name] = mt`
dereferences `mt` at once; in the new-service branch the name checks run
first and only then `srv.method[mt.method.Name] = mt` dereferences `mt`.
A nil `mt` therefore panics in both branches (after the name checks in
the second). -/
def Server.RegisterName (s : Server) (h : HandlerType) (methodName : Str) :
    Outcome Server :=
  let mt := suitableMethodWithName h methodName
  match assocFind s.services h.typeName with
  | some srv =>
    match mt with
    | none => Outcome.crash nilDerefMsg
    | some m =>
        Outcome.ok { s with
          services := assocStore s.services h.typeName
            { srv with methods := assocStore srv.methods m.name m } }
  | none =>
    if h.typeName = [] then
      Outcome.err ("rpc.Register: no service name for type".toList)
    else if isExported h.typeName then
      match mt with
      | none => Outcome.crash nilDerefMsg
      | some m =>
          Outcome.ok { s with
            services := assocStore s.services h.typeName
              { name := h.typeName, methods := [(m.name, m)] } }
    else
      Outcome.err ("rpc.Register: type ".toList ++ h.typeName ++
        " is not exported".toList)

/-- A server with no registered services, used as a concrete dispatch
target. -/
def emptyGobServer : Server := { codec := CodecKind.gob, services := [] }

/-- A concrete request whose method names a service that is not
registered, carrying a non-empty identifier. -/
def c1Req : Request :=
  { method := "Nope.Foo".toList, params := Payload.value [], id := "42".toList }

/-- A service record with an empty method table, registered under the
name Int. -/
def intEmptyService : service := { name := "Int".toList, methods := [] }

/-- A server holding the service Int with an empty method table. -/
def intServer : Server :=
  { codec := CodecKind.gob, services := [("Int".toList, intEmptyService)] }

/-- A concrete request for Int.Sum carrying identifier 7. -/
def c1wReq : Request :=
  { method := "Int.Sum".toList, params := Payload.value [], id := "7".toList }

/-- C1 counterexample: the dispatcher's unknown-service error path (an
error path after method-string parsing) does not stamp the request's
identifier — on a request with identifier 42 whose service is not
registered, the response keeps the codec-default empty identifier. -/
theorem c1_counterexample : ¬ ((emptyGobServer.callOne c1Req).id = c1Req.id) := by
  decide

/-- C4 (code bug): a method registered with a value (non-pointer) argument
type.  Its handler would return the reply 555. -/
def c4Method : methodType :=
  { name := "Sum".toList, argIsPtr := false,
    impl := fun _ => Except.ok "555".toList }

/-- A server exposing Int.Sum with a value argument type. -/
def c4Server : Server :=
  { codec := CodecKind.gob,
    services := [("Int".toList,
      { name := "Int".toList, methods := [("Sum".toList, c4Method)] })] }

/-- A well-formed request for Int.Sum. -/
def c4Req : Request :=
  { method := "Int.Sum".toList, params := Payload.value "args".toList,
    id := "9".toList }

/-- C4: evaluating the dispatcher at the failing input.  Because server.go
takes `argV = argV.Elem()` before calling `ReadRequestBody` (the comment
"argV guaranteed to be a pointer now" notwithstanding), the codec receives
a non-pointer container whenever the method's argument type is a value
type, so even a well-formed payload fails to decode and every such request
yields InternalErr `rpc: could not read request body Int.Sum` — the
handler is never reached. -/
theorem c4_value_arg_decode_fails :
    c4Server.callOne c4Req =
      errResponse InternalErr
        ("rpc: could not read request body Int.Sum".toList) := by
  decide

/-- A concrete request used for the codec-shape claims. -/
def c5Req : Request :=
  { method := "Int.Sum".toList, params := Payload.value "a".toList,
    id := "1".toList }

/-- C5 counterexample: the gob codec's read-request has no single-object
fallback — a body encoding a single request object fails to decode as a
request list and is returned as an error, not as a one-element list. -/
theorem c5_counterexample :
    readRequest CodecKind.gob (ReqBody.single c5Req) =
      Except.error gobDecodeErr := rfl

/-- C5 amended: the JSON codec's read-request returns a one-element list
for a single-object body and fails only when the body decodes as neither
a list nor a single object; the gob codec's read-request decodes only
list-shaped bodies and returns the decode error for a single-object body
just as for any other non-list body. -/
theorem c5_read_request_shapes (r : Request) (rs : List Request) :
    readRequest CodecKind.json (ReqBody.single r) = Except.ok [r]
    ∧ readRequest CodecKind.json (ReqBody.list rs) = Except.ok rs
    ∧ readRequest CodecKind.json ReqBody.other = Except.error jsonDecodeErr
    ∧ readRequest CodecKind.gob (ReqBody.list rs) = Except.ok rs
    ∧ readRequest CodecKind.gob (ReqBody.single r) = Except.error gobDecodeErr
    ∧ readRequest CodecKind.gob ReqBody.other = Except.error gobDecodeErr :=
  ⟨rfl, rfl, rfl, rfl, rfl, rfl⟩

/-- C2 counterexample: with the JSON codec, a transport exchange that
succeeds and decodes to a single response carrying a structured error
(code MethodNotFound with a message) makes Call return success — the null
result payload of the error response decodes harmlessly and the error
field is never inspected — rather than an error preserving code and
message. -/
theorem c2_counterexample :
    Client.Call CodecKind.json
      (Except.ok [errResponse MethodNotFound
        ("rpc: can\x27t find service Int".toList)]) = Outcome.ok () := rfl

/-- C2 amended: the client's Call never inspects the response's
structured error.  For any error code and message, with the JSON codec
Call returns nil (the error response's null result payload decodes as a
no-op), and with the gob codec Call returns the raw decode error produced
by the empty reply payload, which carries neither the code nor the
message. -/
theorem c2_call_ignores_structured_error (code : Int) (msg : Str) :
    Client.Call CodecKind.json (Except.ok [errResponse code msg]) =
      Outcome.ok ()
    ∧ Client.Call CodecKind.gob (Except.ok [errResponse code msg]) =
      Outcome.err ("[Decode] got err: EOF".toList) :=
  ⟨rfl, rfl⟩

/-- C6: the dispatcher's call returns a response list of exactly the input
list's length, and the response at index i is the one produced from the
request at index i (its handler's success reply or its error response). -/
theorem c6_call_index_aligned (s : Server) (reqs : List Request) :
    (s.call reqs).length = reqs.length
    ∧ ∀ i : Nat, (s.call reqs)[i]? = (reqs[i]?).map s.callOne := by
  refine ⟨by simp [Server.call], fun i => ?_⟩
  simp [Server.call]

/-- C8: the client's batch operation with the native-binary (gob) codec
returns the unsupported-codec error immediately — the empty network-event
trace witnesses that no dial, write or read happens — whatever the request
list, the reply container shape, the connection state or the would-be
transport outcome. -/
theorem c8_callbatch_gob_rejected (replyIsSeqPtr : Bool)
    (reqs : List Request) (connected : Bool)
    (transport : Except Str (List Response)) :
    Client.CallBatch CodecKind.gob replyIsSeqPtr reqs connected transport =
      (Except.error "only jsonrpc support CallBatch".toList, []) := rfl

/-- C10: the client's Call indexes element 0 of the decoded response list
unconditionally: an empty list panics with an index-out-of-range runtime
error instead of returning an error, and a longer list is treated exactly
like its first element alone — Call never checks that exactly one response
was received. -/
theorem c10_call_indexes_unchecked :
    (∀ k : CodecKind,
        Client.Call k (Except.ok []) = Outcome.crash idxOutOfRangeMsg)
    ∧ ∀ (k : CodecKind) (r : Response) (rest : List Response),
        Client.Call k (Except.ok (r :: rest)) =
          Client.Call k (Except.ok [r]) :=
  ⟨fun _ => rfl, fun _ _ _ => rfl⟩

/-- Counting dots distributes over cons. -/
theorem countDot_cons (c : Char) (s : Str) :
    countDot (c :: s) = (if c = '.' then 1 else 0) + countDot s := by
  by_cases hc : c = '.' <;> simp [countDot, List.filter_cons, hc] <;> omega

/-- Counting dots distributes over append. -/
theorem countDot_append (a b : Str) :
    countDot (a ++ b) = countDot a + countDot b := by
  simp [countDot, List.filter_append]

/-- A dot-free string has no last dot index. -/
theorem lastIndexDot_noDot (b : Str) (hb : countDot b = 0) :
    lastIndexDot b = none := by
  induction b with
  | nil => rfl
  | cons c rest ih =>
    rw [countDot_cons] at hb
    by_cases hc : c = '.'
    · rw [if_pos hc] at hb; omega
    · rw [if_neg hc] at hb
      simp only [Nat.zero_add] at hb
      simp [lastIndexDot, ih hb, hc]

/-- The last dot of `a ++ "." ++ b` with `b` dot-free sits at index
`a.length`. -/
theorem lastIndexDot_concat (a b : Str) (hb : countDot b = 0) :
    lastIndexDot (a ++ '.' :: b) = some a.length := by
  induction a with
  | nil => simp [lastIndexDot, lastIndexDot_noDot b hb]
  | cons c rest ih => simp [lastIndexDot, ih]

/-- C7: method-string parsing.  A string with exactly one dot — written
`a ++ "." ++ b` with `a` and `b` dot-free — splits into the pair `(a, b)`
at that dot; and the dispatcher maps every request whose method string
does not contain exactly one dot (zero dots, as in `A` or the empty
string, or several, as in `A.B.C`) to an InvalidRequest error response. -/
theorem c7_method_parsing :
    (∀ a b : Str, countDot a = 0 → countDot b = 0 →
        parseFromRPCMethod (a ++ '.' :: b) = Except.ok (a, b))
    ∧ ∀ (s : Server) (req : Request), countDot req.method ≠ 1 →
        s.callOne req = errResponse InvalidRequest (illFormedMsg req.method) := by
  constructor
  · intro a b ha hb
    have hcount : countDot (a ++ '.' :: b) = 1 := by
      rw [countDot_append, ha, countDot_cons, if_pos rfl, hb]
    have hlast := lastIndexDot_concat a b hb
    rw [parseFromRPCMethod, if_neg (by omega), hlast]
    have htake : (a ++ '.' :: b).take a.length = a := List.take_left a ('.' :: b)
    have hdrop : (a ++ '.' :: b).drop (a.length + 1) = b := by
      have hsplit : a ++ '.' :: b = (a ++ ['.']) ++ b := by simp
      rw [hsplit, List.drop_left' (by simp)]
    show Except.ok ((a ++ '.' :: b).take a.length,
      (a ++ '.' :: b).drop (a.length + 1)) = Except.ok (a, b)
    rw [htake, hdrop]
  · intro s req h
    have hp : parseFromRPCMethod req.method =
        Except.error (illFormedMsg req.method) := by
      rw [parseFromRPCMethod, if_pos h]
    simp [Server.callOne, hp]

/-- A dot-free method string used to hit the InvalidRequest path. -/
def c7Req : Request :=
  { method := "Missing".toList, params := Payload.value [], id := [] }

/-- Witness for C7 at concrete inputs: `A.B` parses as `(A, B)`, and the
request with method `Missing` draws an InvalidRequest error response. -/
theorem c7_method_parsing_witness :
    parseFromRPCMethod ('A' :: '.' :: 'B' :: []) = Except.ok (['A'], ['B'])
    ∧ emptyGobServer.callOne c7Req =
        errResponse InvalidRequest (illFormedMsg c7Req.method) :=
  ⟨c7_method_parsing.1 ['A'] ['B'] (by decide) (by decide),
   c7_method_parsing.2 emptyGobServer c7Req (by decide)⟩

/-- C1 amended: where the dispatcher stamps the request identifier.  For
any request whose method string parses, the response produced by the
dispatcher carries the request's identifier on the unknown-method path,
the handler-error path and the success path, but keeps the codec-default
empty identifier on the unknown-service path and the body-decode-failure
path (the parse-error path, before these, also leaves it empty). -/
theorem c1_id_stamping_paths (s : Server) (req : Request) (sn mn : Str)
    (hp : parseFromRPCMethod req.method = Except.ok (sn, mn)) :
    (assocFind s.services sn = none → (s.callOne req).id = [])
    ∧ ∀ svc, assocFind s.services sn = some svc →
        ((assocFind svc.methods mn = none → (s.callOne req).id = req.id)
         ∧ ∀ m, assocFind svc.methods mn = some m →
             ((∀ e, readRequestBody s.codec req.params m.argIsPtr =
                    Except.error e → (s.callOne req).id = [])
              ∧ (readRequestBody s.codec req.params m.argIsPtr =
                    Except.ok () → (s.callOne req).id = req.id))) := by
  refine ⟨?_, ?_⟩
  · intro hs
    simp [Server.callOne, hp, hs, errResponse]
  · intro svc hs
    refine ⟨?_, ?_⟩
    · intro hm
      simp [Server.callOne, hp, hs, hm, errResponse, Response.setReqId]
    · intro m hm
      refine ⟨?_, ?_⟩
      · intro e he
        simp [Server.callOne, hp, hs, hm, he, errResponse]
      · intro hok
        cases himpl : m.impl req.params with
        | error e2 =>
          simp [Server.callOne, hp, hs, hm, hok, himpl, errResponse,
            Response.setReqId]
        | ok v =>
          simp [Server.callOne, hp, hs, hm, hok, himpl, newResponse,
            Response.setReqId]

/-- Witness for C1 (amended) at a concrete input: a request with
identifier 7 for a known service whose method table lacks the method gets
its identifier stamped onto the MethodNotFound reply. -/
theorem c1_id_stamping_paths_witness :
    (intServer.callOne c1wReq).id = c1wReq.id :=
  ((c1_id_stamping_paths intServer c1wReq ("Int".toList) ("Sum".toList)
      rfl).2 intEmptyService rfl).1 rfl

/-- C3 amended: on a TCP connection, the `resps` slice lives outside the
read loop, so when decoding a frame body fails the ParseErr response is
appended to the response list left over from the preceding frames
(initially empty): the written list is a one-element ParseErr list only
when that leftover list is empty, e.g. on the connection's first frame. -/
theorem c3_parse_error_appends (s : Server) (resps : List Response)
    (bs : List ReqBody) (b : ReqBody) (e : Str)
    (hb : readRequest s.codec b = Except.error e) :
    serveConnWrites s resps (bs ++ [b]) =
      serveConnWrites s resps bs ++
        [connFinal s resps bs ++ [errResponse ParseErr e]] := by
  induction bs generalizing resps with
  | nil => simp [serveConnWrites, serveConnStep, connFinal, hb]
  | cons b0 rest ih => simp [serveConnWrites, connFinal, ih]

/-- A request whose dispatch produces one (MethodNotFound) response. -/
def c3Req : Request :=
  { method := "A.B".toList, params := Payload.value "x".toList,
    id := "1".toList }

/-- Witness for C3 (amended): after one successfully dispatched frame, a
frame whose body fails to decode is answered with the previous frame's
single response plus the appended ParseErr response. -/
theorem c3_parse_error_appends_witness :
    serveConnWrites emptyGobServer [] [ReqBody.list [c3Req], ReqBody.other] =
      serveConnWrites emptyGobServer [] [ReqBody.list [c3Req]] ++
        [connFinal emptyGobServer [] [ReqBody.list [c3Req]] ++
          [errResponse ParseErr gobDecodeErr]] :=
  c3_parse_error_appends emptyGobServer [] [ReqBody.list [c3Req]]
    ReqBody.other gobDecodeErr rfl

/-- C3 counterexample: on a connection that already processed one frame
(one request, one response), the response list written for a subsequent
frame whose body fails to decode has two elements — the stale response
and the ParseErr response — not exactly one. -/
theorem c3_counterexample :
    ((serveConnWrites emptyGobServer []
        [ReqBody.list [c3Req], ReqBody.other])[1]?).map List.length =
      some 2 := by
  decide

/-- C9: if RegisterName is invoked with a method name the handler's type
lacks, or whose signature fails the suitability criteria, the
suitable-method lookup returns nil and RegisterName dereferences it: it
panics instead of returning an error, both when the service name is
already registered and when a fresh (well-named, exported) service record
is being created. -/
theorem c9_registerName_nil_deref (s : Server) (h : HandlerType) (mn : Str)
    (hmt : suitableMethodWithName h mn = none) :
    (∀ srv, assocFind s.services h.typeName = some srv →
        s.RegisterName h mn = Outcome.crash nilDerefMsg)
    ∧ (assocFind s.services h.typeName = none → h.typeName ≠ [] →
        isExported h.typeName = true →
        s.RegisterName h mn = Outcome.crash nilDerefMsg) := by
  constructor
  · intro srv hsrv
    simp [Server.RegisterName, hmt, hsrv]
  · intro hnone hne hexp
    simp [Server.RegisterName, hmt, hnone, hne, hexp]

/-- A handler type named Int with no methods at all, so every
suitable-method lookup on it returns nil. -/
def c9Handler : HandlerType := { typeName := "Int".toList, methods := [] }

/-- Witness for C9: registering the absent method Nope on the
already-registered service Int panics with the nil-dereference runtime
error. -/
theorem c9_registerName_nil_deref_witness :
    intServer.RegisterName c9Handler ("Nope".toList) =
      Outcome.crash nilDerefMsg :=
  (c9_registerName_nil_deref intServer c9Handler ("Nope".toList) rfl).1
    intEmptyService rfl
